import Mathlib

/-!
Verification of the adaptive grammar versioning and self-extension engine of
the `ast_create` repository (files `ast_create/grammar/grammar_manager.py`,
`ast_create/grammar/parser.py`, `ast_create/agents/agent_coordinator.py`).

The Python code is shallowly embedded: pure string manipulation is translated
to executable Lean functions over `String`/`List Char`; the external Lark
backend, the filesystem and the rule-generation agent are passed in as
explicit oracles; methods that mutate the manager object become functions
from the manager state to a new state paired with the Python return value
(an `Except` models a propagating exception).
-/

deriving instance DecidableEq for Except

namespace AstCreate

/-! ## Character classes (ASCII fragment of Python's regex `\s` and `\w`) -/

/-- ASCII characters matched by Python's regex class `\s`. -/
def isSpc (c : Char) : Bool :=
  c = ' ' || c = '\t' || c = '\n' || c = '\r' || c = '\x0b' || c = '\x0c'

/-- ASCII characters matched by Python's regex class `\w`. -/
def isWordChar (c : Char) : Bool :=
  c.isAlpha || c.isDigit || c = '_'

/-! ## Python string primitives

The embedding uses its own structurally recursive versions of `str.split`,
`str.join`, `str.strip`, `str.replace` and string comparison, so that every
definition evaluates by kernel reduction. -/

/-- `text.split("\n")`, accumulator style. -/
def splitNlAux : List Char → List Char → List (List Char)
  | acc, [] => [acc.reverse]
  | acc, c :: cs =>
    if c = '\n' then acc.reverse :: splitNlAux [] cs else splitNlAux (c :: acc) cs

/-- `text.split("\n")` as a list of lines (an empty text gives `[""]`,
exactly as in Python). -/
def splitLines (s : String) : List String :=
  (splitNlAux [] s.data).map (fun l => String.mk l)

/-- `"\n".join(lines)`. -/
def joinWithNl : List String → String
  | [] => ""
  | [l] => l
  | l :: ls => l ++ "\n" ++ joinWithNl ls

/-- `s.strip()` on the ASCII whitespace class. -/
def pyStrip (s : String) : String :=
  String.mk (((s.data.dropWhile isSpc).reverse.dropWhile isSpc).reverse)

/-- `s.replace(old, new)` for nonempty `old`: left-to-right scan replacing
non-overlapping occurrences.  The fuel argument (instantiated with the input
length, one unit per consumed character) keeps the recursion structural; an
empty `old` is never passed by the callers and is treated as a no-op. -/
def replaceFuel (pat rep : List Char) : Nat → List Char → List Char
  | 0, l => l
  | _ + 1, [] => []
  | fuel + 1, c :: cs =>
    if !pat.isEmpty && pat.isPrefixOf (c :: cs) then
      rep ++ replaceFuel pat rep fuel ((c :: cs).drop pat.length)
    else c :: replaceFuel pat rep fuel cs

/-- `s.replace(old, new)`. -/
def pyReplace (s pat rep : String) : String :=
  String.mk (replaceFuel pat.data rep.data s.data.length s.data)

/-- Python `<` on strings: lexicographic comparison by code point. -/
def strLt : List Char → List Char → Bool
  | [], [] => false
  | [], _ :: _ => true
  | _ :: _, [] => false
  | a :: as, b :: bs => if a = b then strLt as bs else decide (a < b)

/-- Python `<=` on strings (the order of the `v.timestamp` sort key). -/
def strLe (a b : String) : Bool :=
  strLt a.data b.data || a == b

/-! ## The `UPDATE_RULE` directive scanners of `GrammarManager.extend_grammar`

`extend_grammar` recognises update directives with
`re.finditer(r"//\s*UPDATE_RULE:\s*(\w+)\s*\|=\s*(.+)$", new_rules, re.MULTILINE)`
and strips them with `re.sub(r"//\s*UPDATE_RULE:.*$", "", new_rules, re.MULTILINE)`.
`\s` matches the newline, so every `\s*` may cross line breaks; `(\w+)` and
`.` stay within a line and `$` is an end-of-line anchor.  A match therefore
starts at a `//` marker anywhere in the text and ends at the end of the line
holding its last component.  Both scanners walk the whole text, try a match
at every position exactly like the regex engine, and on a match resume after
its end (matches are non-overlapping). -/

/-- The literal keyword of an update directive. -/
def updateRuleKey : List Char := "UPDATE_RULE:".toList

/-- `//` has been consumed; does `\s*UPDATE_RULE:` match here?  This is the
part of the pattern shared by the `finditer` and the `re.sub` calls; the
leading `\s*` may cross newlines.  Greedy whitespace needs no backtracking:
a shorter `\s*` would leave a whitespace character where `U` is required. -/
def matchCmdAfter (cs : List Char) : Bool :=
  updateRuleKey.isPrefixOf (cs.dropWhile isSpc)

/-- `//` has been consumed; parse `\s*UPDATE_RULE:\s*(\w+)\s*\|=\s*(.+)$`,
returning the rule name, the stripped new alternative and the rest of the
text after the match end.  After `|=`, the greedy `\s*` backtracks just far
enough for `(.+)$` to match, so the match succeeds exactly when some
non-newline character remains, and `group(2)` runs from the first character
after the chosen whitespace to the end of that line; when only whitespace
remains, the surviving `group(2)` is a lone whitespace character before the
trailing newlines and strips to the empty alternative. -/
def parseDirAfterSlashes (cs : List Char) : Option ((String × String) × List Char) :=
  if matchCmdAfter cs then
    let cs2 := ((cs.dropWhile isSpc).drop updateRuleKey.length).dropWhile isSpc
    let name := cs2.takeWhile isWordChar
    if name.isEmpty then none
    else
      match (cs2.dropWhile isWordChar).dropWhile isSpc with
      | '|' :: '=' :: cs4 =>
        if cs4.any (fun c => c != '\n') then
          let cs5 := cs4.dropWhile isSpc
          if cs5.isEmpty then
            some ((String.mk name, ""), (cs4.reverse.takeWhile (fun c => c = '\n')).reverse)
          else
            let altRaw := cs5.takeWhile (fun c => c != '\n')
            some ((String.mk name, pyStrip (String.mk altRaw)), cs5.drop altRaw.length)
        else none
      | _ => none
  else none

/-- Does a full-directive match start at this position?  On success, also the
remainder of the text after the match. -/
def startsDirective (l : List Char) : Option ((String × String) × List Char) :=
  match l with
  | c1 :: c2 :: rest => if c1 = '/' ∧ c2 = '/' then parseDirAfterSlashes rest else none
  | _ => none

/-- Does a `re.sub`-pattern match (`//\s*UPDATE_RULE:.*$`) start at this
position?  On success, the remainder after the match end — the `.*` runs to
the end of the line holding `UPDATE_RULE:`, whose newline survives. -/
def startsCmdMatch (l : List Char) : Option (List Char) :=
  match l with
  | c1 :: c2 :: rest =>
    if c1 = '/' ∧ c2 = '/' then
      if matchCmdAfter rest then
        some (((rest.dropWhile isSpc).drop updateRuleKey.length).dropWhile
          (fun c => c != '\n'))
      else none
    else none
  | _ => none

/-- `re.finditer` over the whole text: try each position, collect the
non-overlapping matches in textual order.  The fuel (instantiated with the
text length; every step consumes at least one character) keeps the recursion
structural. -/
def findDirsFuel : Nat → List Char → List (String × String)
  | 0, _ => []
  | _ + 1, [] => []
  | fuel + 1, c :: cs =>
    match startsDirective (c :: cs) with
    | some (d, rest) => d :: findDirsFuel fuel rest
    | none => findDirsFuel fuel cs

/-- All update directives of `new_rules`, in textual order. -/
def findDirectives (s : String) : List (String × String) :=
  findDirsFuel s.data.length s.data

/-- `re.sub(r"//\s*UPDATE_RULE:.*$", "", new_rules, flags=re.MULTILINE)`:
every matched span (from its `//` marker through the end of the line holding
`UPDATE_RULE:`, newlines crossed by `\s*` included) is struck out. -/
def cleanFuel : Nat → List Char → List Char
  | 0, l => l
  | _ + 1, [] => []
  | fuel + 1, c :: cs =>
    match startsCmdMatch (c :: cs) with
    | some rest => cleanFuel fuel rest
    | none => c :: cleanFuel fuel cs

/-- `cleaned_rules` of `extend_grammar`. -/
def removeDirectiveText (s : String) : String :=
  String.mk (cleanFuel s.data.length s.data)

/-! ## Locating a rule definition

`extend_grammar` looks a rule up with
`re.search(rf"(?m)^(?:\?)?{rule_name}\s*:(.*?)(?:$|\n\n|\n(?:\w+):)", g, re.DOTALL)`.
A match starts at a line start (`^`); after the optional `?` and the name,
`\s*` may cross newlines on its way to the colon.  The lazy group then stops
at the first position where the terminator alternation succeeds, and the
multiline `$` succeeds at the end of the line carrying the colon (before
`\n\n` or `\n\w+:` ever get a chance), so `group(0)` runs from the start of
the name's line to the end of the colon's line and `group(1)` is the text
between the colon and that line end.  `re.search` returns the match at the
earliest line start.  The names interpolated into the pattern always come
from a `(\w+)` capture, so they are matched literally. -/

/-- Match `^(?:\?)?name\s*:` at a line start, with `\s*` free to cross
newlines; on success return the matched text (the regex `group(0)`) and the
content between the colon and the end of its line (`group(1)`). -/
def ruleStartParse (name : String) (l : List Char) : Option (List Char × List Char) :=
  let stripQ : Option (List Char × List Char) :=
    match l with
    | '?' :: r =>
      if name.toList.isPrefixOf r then some ('?' :: name.toList, r.drop name.length)
      else none
    | _ =>
      if name.toList.isPrefixOf l then some (name.toList, l.drop name.length)
      else none
  match stripQ with
  | none => none
  | some (pre, rest1) =>
    let ws := rest1.takeWhile isSpc
    match rest1.dropWhile isSpc with
    | ':' :: rest2 =>
      let content := rest2.takeWhile (fun c => c != '\n')
      some (pre ++ ws ++ ':' :: content, content)
    | _ => none

/-- The suffixes of the text that begin just after a newline, in textual
order: together with the whole text these are the positions where the
multiline `^` can match. -/
def lineStartSuffixes : List Char → List (List Char)
  | [] => []
  | c :: cs =>
    if c = '\n' then cs :: lineStartSuffixes cs else lineStartSuffixes cs

/-- The `re.search`: try every line start in textual order, returning the
matched span (`group(0)`, which `extend_grammar` uses as `rule_def`) and the
`rule_content` (`group(1)`). -/
def findRuleLine (g : String) (name : String) : Option (String × String) :=
  (g.data :: lineStartSuffixes g.data).findSome?
    (fun l => (ruleStartParse name l).map (fun r => (String.mk r.1, String.mk r.2)))

/-- One directive applied to the working grammar: if the rule is found, the
matched line (`rule_def`) is replaced everywhere by
`f"{rule_name}: {rule_content.strip()} | {new_option}"`; otherwise the
directive is a silent no-op. -/
def applyDirective (g : String) (d : String × String) : String :=
  match findRuleLine g d.1 with
  | some (line, content) =>
      pyReplace g line (d.1 ++ ": " ++ pyStrip content ++ " | " ++ d.2)
  | none => g

/-- The `for match in update_matches` loop of `extend_grammar`. -/
def updatedGrammarText (g : String) (ds : List (String × String)) : String :=
  ds.foldl applyDirective g

/-- `extended_grammar = f"{updated_grammar}\n\n// Расширение: {description}\n{cleaned_rules}"`. -/
def extendedText (g : String) (newRules : String) (description : String) : String :=
  updatedGrammarText g (findDirectives newRules)
    ++ "\n\n// Расширение: " ++ description ++ "\n" ++ removeDirectiveText newRules

/-! ## Data model

`GrammarVersion` (grammar_manager.py) and its JSON record.  `to_dict` writes a
JSON object with exactly the five string fields and `from_dict` reads them
back; `json.dump`/`json.load` round-trip such an object exactly, so the
persisted record is modelled by the structure `VersionDict`. -/

/-- A grammar version (class `GrammarVersion`). -/
structure GrammarVersion where
  grammar : String
  description : String
  created_by : String
  version_id : String
  timestamp : String
deriving DecidableEq, Repr

/-- The JSON record written by `GrammarVersion.to_dict`. -/
structure VersionDict where
  grammar : String
  description : String
  created_by : String
  version_id : String
  timestamp : String
deriving DecidableEq, Repr

/-- `GrammarVersion.to_dict`. -/
def GrammarVersion.to_dict (v : GrammarVersion) : VersionDict :=
  ⟨v.grammar, v.description, v.created_by, v.version_id, v.timestamp⟩

/-- `GrammarVersion.from_dict`. -/
def VersionDict.from_dict (d : VersionDict) : GrammarVersion :=
  ⟨d.grammar, d.description, d.created_by, d.version_id, d.timestamp⟩

/-- A filesystem directory holding JSON records, keyed by file path
(for the version store the key is the `version_id` stem of
`versions_path / f"{version_id}.json"`). -/
abbrev Store := List (String × VersionDict)

/-- Overwrite-or-create a record. -/
def storeWrite (fs : Store) (key : String) (rec : VersionDict) : Store :=
  fs.filter (fun p => p.1 ≠ key) ++ [(key, rec)]

/-- `GrammarVersion.save_to_file`: returns `False` instead of raising on an
I/O error (`ioOk = false`), in which case nothing is written. -/
def save_to_file (ioOk : Bool) (fs : Store) (filePath : String) (v : GrammarVersion) :
    Bool × Store :=
  if ioOk then (true, storeWrite fs filePath v.to_dict) else (false, fs)

/-- `GrammarVersion.load_from_file` (via `GrammarManager._load_version`'s
existence check): `none` when the record is absent. -/
def load_from_file (fs : Store) (filePath : String) : Option GrammarVersion :=
  (fs.lookup filePath).map VersionDict.from_dict

/-- The compiled parser artifact, identified by the grammar text it was
compiled from (`Lark(grammar, parser="lalr", lexer="contextual")` is a pure
function of the grammar text). -/
structure LarkArtifact where
  source : String
deriving DecidableEq, Repr

/-- The mutable state of a `GrammarManager`. -/
structure ManagerState where
  current_version : GrammarVersion
  larkParser : LarkArtifact
  store : Store
deriving DecidableEq, Repr

/-- The external world: whether a grammar text compiles (`Lark` construction
is deterministic) and whether writing a given version file succeeds. -/
structure Env where
  compileOk : String → Bool
  saveOk : String → Bool
  baseGrammarFile : Option String

/-! ## GrammarManager operations -/

/-- `GrammarManager._save_version`. -/
def save_version (env : Env) (st : ManagerState) (v : GrammarVersion) :
    Bool × ManagerState :=
  let r := save_to_file (env.saveOk v.version_id) st.store v.version_id v
  (r.1, { st with store := r.2 })

/-- `GrammarManager._load_version`. -/
def load_version (st : ManagerState) (version_id : String) : Option GrammarVersion :=
  load_from_file st.store version_id

/-- Stable insertion of one element into a list sorted ascending by
timestamp: it goes in front of the first element it compares `<=` to. -/
def insertByTs (v : GrammarVersion) : List GrammarVersion → List GrammarVersion
  | [] => [v]
  | u :: us => if strLe v.timestamp u.timestamp then v :: u :: us else u :: insertByTs v us

/-- `versions.sort(key=lambda v: v.timestamp)`: a stable sort ascending by
the timestamp string (Python's Timsort and this insertion sort agree on every
list, both being stable). -/
def sortByTs : List GrammarVersion → List GrammarVersion
  | [] => []
  | v :: vs => insertByTs v (sortByTs vs)

/-- `GrammarManager._load_latest_version`: load every record, sort ascending
by `timestamp` and return the last one. -/
def load_latest_version (fs : Store) : Option GrammarVersion :=
  (sortByTs (fs.map (fun p => p.2.from_dict))).getLast?

/-- `GrammarManager.add_version`.  The version is saved (result ignored) and
installed as `current_version` first; only then is the parser rebuilt, and a
compilation failure propagates as an exception, leaving the already-mutated
state behind.  Fresh `uuid4`/`now` values are passed in as `vid`/`ts`. -/
def add_version (env : Env) (st : ManagerState)
    (grammar description created_by vid ts : String) :
    ManagerState × Except Unit GrammarVersion :=
  let v : GrammarVersion := ⟨grammar, description, created_by, vid, ts⟩
  let st1 := (save_version env st v).2
  let st2 := { st1 with current_version := v }
  if env.compileOk grammar then
    ({ st2 with larkParser := ⟨grammar⟩ }, .ok v)
  else (st2, .error ())

/-- `GrammarManager.rollback_to_version`.  A missing version returns `False`
untouched; otherwise `current_version` is set *before* the parser is rebuilt,
and a compilation failure returns `False` with the stale artifact kept. -/
def rollback_to_version (env : Env) (st : ManagerState) (version_id : String) :
    ManagerState × Bool :=
  match load_version st version_id with
  | none => (st, false)
  | some v =>
    let st1 := { st with current_version := v }
    if env.compileOk v.grammar then
      ({ st1 with larkParser := ⟨v.grammar⟩ }, true)
    else (st1, false)

/-- `GrammarManager.extend_grammar`: merge the directives, validate the
candidate with a speculative `_create_parser`, and only on success commit via
`add_version` (whose own compilation of the identical text succeeds again,
its exception branch being caught and turned into `False`). -/
def extend_grammar (env : Env) (st : ManagerState)
    (new_rules description created_by vid ts : String) :
    ManagerState × Bool :=
  let ext := extendedText st.current_version.grammar new_rules description
  if env.compileOk ext then
    let r := add_version env st ext description created_by vid ts
    match r.2 with
    | .ok _ => (r.1, true)
    | .error _ => (r.1, false)
  else (st, false)

/-- `GrammarManager.__init__` with an explicit `initial_grammar`: wrap it,
save it (result ignored), then compile it; a compilation failure escapes the
constructor, but only after the version file has been written. -/
def init_with_grammar (env : Env) (fs : Store) (initial_grammar vid ts : String) :
    Store × Except Unit ManagerState :=
  let v : GrammarVersion :=
    ⟨initial_grammar, "Начальная версия грамматики", "initialization", vid, ts⟩
  let fs1 := (save_to_file (env.saveOk vid) fs vid v).2
  if env.compileOk initial_grammar then
    (fs1, .ok ⟨v, ⟨initial_grammar⟩, fs1⟩)
  else (fs1, .error ())

/-- `GrammarManager.__init__` without an initial grammar: adopt the latest
stored version if one exists; otherwise read the base grammar file (or the
built-in placeholder when the file is missing), wrap and save it.  Either
way the chosen grammar is then compiled, and a failure escapes the
constructor. -/
def init_from_store (env : Env) (fs : Store) (vid ts : String) :
    Store × Except Unit ManagerState :=
  match load_latest_version fs with
  | some v =>
    if env.compileOk v.grammar then (fs, .ok ⟨v, ⟨v.grammar⟩, fs⟩)
    else (fs, .error ())
  | none =>
    let base := env.baseGrammarFile.getD "start: statement*\n?statement: "
    let v : GrammarVersion :=
      ⟨base, "Базовая версия грамматики", "initialization", vid, ts⟩
    let fs1 := (save_to_file (env.saveOk vid) fs vid v).2
    if env.compileOk base then (fs1, .ok ⟨v, ⟨base⟩, fs1⟩)
    else (fs1, .error ())

/-! ## `GrammarManager.parse` and its diagnostics -/

/-- An abstract parse tree (the claims never inspect tree contents). -/
structure ParseTree where
  repr : String
deriving DecidableEq, Repr

/-- What the Lark backend does with the active artifact on a given input:
success, `exceptions.UnexpectedToken` (token text and `pos_in_stream`),
`exceptions.UnexpectedCharacters` (`char`, `pos_in_stream`, `line`,
`column`), or any other exception (its message). -/
inductive BackendOutcome where
  | tree (t : ParseTree)
  | unexpectedToken (token : String) (pos : Nat)
  | unexpectedCharacters (ch : Char) (pos : Nat) (line : Nat) (column : Nat)
  | otherError (msg : String)
deriving DecidableEq, Repr

/-- The `line_starts` list of `GrammarManager._get_line_col`:
`[0]` plus `i + 1` for every newline at index `i`. -/
def lineStarts (text : String) : List Nat :=
  0 :: (text.toList.enum.filterMap
    (fun p => if p.2 = '\n' then some (p.1 + 1) else none))

/-- The line-search loop of `_get_line_col`: over `line_starts[1:]` with `i`
counted from 1, stop with `line = i` at the first start exceeding `pos`,
ending with `line = k + 1` when none does. -/
def lineOfPos (pos : Nat) : Nat → List Nat → Nat
  | i, [] => i
  | i, s :: rest => if pos < s then i else lineOfPos pos (i + 1) rest

/-- `GrammarManager._get_line_col`. -/
def get_line_col (text : String) (pos : Nat) : Nat × Nat :=
  let starts := lineStarts text
  let line := lineOfPos pos 1 starts.tail
  (line, pos - starts.getD (line - 1) 0 + 1)

/-- The `context` list of `GrammarManager._get_error_context`
(`context_lines = 2`): lines `max(0, line-3) .. min(len, line+2) - 1`, each
rendered `f"{prefix}{line_num}: {lines[i]}"` with an `"-> "` marker on the
failing line. -/
def get_error_context_lines (text : String) (line : Nat) : List String :=
  let lines := splitLines text
  let startLine := line - 3
  let endLine := min lines.length (line + 2)
  (List.range (endLine - startLine)).map (fun k =>
    (if startLine + k + 1 = line then "-> " else "   ")
      ++ toString (startLine + k + 1) ++ ": " ++ lines.getD (startLine + k) "")

/-- `GrammarManager._get_error_context`. -/
def get_error_context (text : String) (line : Nat) : String :=
  joinWithNl (get_error_context_lines text line)

/-- `GrammarManager.parse`: on success the tree; on any failure a single
`SyntaxError` (modelled as `Except.error` carrying the message built by the
corresponding handler). -/
def manager_parse (backend : String → BackendOutcome) (code : String) :
    Except String ParseTree :=
  match backend code with
  | .tree t => .ok t
  | .unexpectedToken tok pos =>
    let em := "Синтаксическая ошибка: неожиданный токен \x27" ++ tok
      ++ "\x27 в позиции " ++ toString pos
    let lc := get_line_col code pos
    .error (em ++ "\nСтрока " ++ toString lc.1 ++ ", столбец " ++ toString lc.2
      ++ ":\n" ++ get_error_context code lc.1)
  | .unexpectedCharacters ch pos line column =>
    let em := "Синтаксическая ошибка: неожиданный символ \x27"
      ++ String.mk [ch] ++ "\x27 в позиции " ++ toString pos
    .error (em ++ "\nСтрока " ++ toString line ++ ", столбец " ++ toString column
      ++ ":\n" ++ get_error_context code line)
  | .otherError m => .error ("Ошибка при разборе кода: " ++ m)

/-! ## `Parser.parse`: the self-extension loop

`parser.py` loops `while True`: parse; on a `SyntaxError`, when agents are
enabled it calls `self.agent_coordinator.process_parse_error(code, str(e))`
— which returns a `bool` — and then evaluates
`correction_result and correction_result.get("success", False)`.
A Python `bool` has no `.get` attribute, so a truthy result raises
`AttributeError` out of the handler; only a falsy result short-circuits to
the `raise SyntaxError(str(e))` below.  `max_correction_attempts` and
`correction_attempts` are threaded through faithfully: the code never reads
them when deciding anything. -/

/-- A propagating Python exception of the loop. -/
inductive PyError where
  | syntaxError (msg : String)
  | attributeError (msg : String)
deriving DecidableEq, Repr

/-- `correction_result and correction_result.get("success", False)` evaluated
on the `bool` that `process_parse_error` actually returns. -/
def boolAndGet (r : Bool) : Except PyError Bool :=
  if r then
    .error (.attributeError "\x27bool\x27 object has no attribute \x27get\x27")
  else .ok false

/-- The collaborators of the loop: `grammar_manager.parse` on the current
mutable state `σ`, and `AgentCoordinator.process_parse_error` (which traps
all its own exceptions and returns a `bool`, possibly extending the grammar
and hence changing the state), plus the
`config.agents.max_tokens > 0 and self.agent_coordinator.enabled` guard. -/
structure LoopEnv (σ : Type) where
  parseStep : σ → Except String ParseTree
  fixStep : σ → String → Bool × σ
  agentsOn : Bool

/-- `Parser.parse`, fuel-indexed: `none` means the `while True` loop is still
running after `fuel` iterations; `some` is the returned tree or the escaping
exception together with the final state.  `maxAttempts` is
`max_correction_attempts` and the last argument is `correction_attempts`. -/
def parser_parse {σ : Type} (env : LoopEnv σ) (maxAttempts : Nat) :
    Nat → σ → Nat → Option (Except PyError ParseTree × σ)
  | 0, _, _ => none
  | fuel + 1, s, attempts =>
    match env.parseStep s with
    | .ok t => some (.ok t, s)
    | .error e =>
      if env.agentsOn then
        let r := env.fixStep s e
        match boolAndGet r.1 with
        | .error exc => some (.error exc, r.2)
        | .ok true => parser_parse env maxAttempts fuel r.2 (attempts + 1)
        | .ok false => some (.error (.syntaxError e), r.2)
      else some (.error (.syntaxError e), s)

/-! ## `GrammarManager.backup_all_versions`

The target directory is created with `backup_dir.mkdir(parents=True,
exist_ok=True)` *outside* the `try` block, so a failure to create it raises
out of the method; everything after that point is inside the `try` and turns
into `return False`, with files copied before the failure left in place. -/

/-- The I/O oracle for one backup call. -/
structure BackupEnv where
  mkdirOk : Bool
  copyOk : String → Bool
  manifestOk : Bool

/-- The `backup_info.json` manifest record. -/
structure Manifest where
  backup_timestamp : String
  versions_count : Nat
  current_version_id : String
deriving DecidableEq, Repr

/-- Contents of the backup directory after the call. -/
structure BackupDir where
  files : Store
  manifest : Option Manifest
deriving DecidableEq, Repr

/-- The `for file_path in version_files: shutil.copy2(...)` loop: the first
failing copy raises, leaving the copies made so far (`Except.error` carries
the partial result). -/
def copyFiles (benv : BackupEnv) : Store → Store → Except Store Store
  | acc, [] => .ok acc
  | acc, (k, rec) :: rest =>
    if benv.copyOk k then copyFiles benv (acc ++ [(k, rec)]) rest
    else .error acc

/-- `GrammarManager.backup_all_versions`.  `Except.error ()` is an exception
escaping the method (only the `mkdir` can do that); `Except.ok (b, dir)` is a
normal `return b` with the produced backup directory contents. -/
def backup_all_versions (benv : BackupEnv) (now : String) (st : ManagerState) :
    Except Unit (Bool × BackupDir) :=
  if benv.mkdirOk then
    match copyFiles benv [] st.store with
    | .error partCopied => .ok (false, ⟨partCopied, none⟩)
    | .ok allCopied =>
      if benv.manifestOk then
        .ok (true, ⟨allCopied,
          some ⟨now, st.store.length, st.current_version.version_id⟩⟩)
      else .ok (false, ⟨allCopied, none⟩)
  else .error ()

/-! ## Helper lemmas -/

theorem lookup_storeWrite (fs : Store) (k : String) (rec : VersionDict) :
    (storeWrite fs k rec).lookup k = some rec := by
  induction fs with
  | nil => simp [storeWrite, List.lookup]
  | cons p fs ih =>
    by_cases h : p.1 = k
    · have he : storeWrite (p :: fs) k rec = storeWrite fs k rec := by
        simp [storeWrite, List.filter_cons, h]
      rw [he]
      exact ih
    · have he : storeWrite (p :: fs) k rec = p :: storeWrite fs k rec := by
        simp [storeWrite, List.filter_cons, h]
      have hbeq : (k == p.1) = false := beq_eq_false_iff_ne.mpr (fun hh => h hh.symm)
      rw [he]
      simp only [List.lookup, hbeq]
      exact ih

/-! ## C1 -/

/-- C1: when the composed candidate grammar of `extend_grammar` fails to
compile, the call returns `False` and the manager state — `current_version`
(id and grammar text), the active parser artifact, and the store — is
exactly what it was before the call. -/
theorem C1_extend_failure_preserves_state (env : Env) (st : ManagerState)
    (new_rules description created_by vid ts : String)
    (h : env.compileOk (extendedText st.current_version.grammar new_rules description)
      = false) :
    extend_grammar env st new_rules description created_by vid ts = (st, false) ∧
    (extend_grammar env st new_rules description created_by vid ts).1.current_version
      = st.current_version ∧
    (extend_grammar env st new_rules description created_by vid ts).1.larkParser
      = st.larkParser := by
  have h1 : extend_grammar env st new_rules description created_by vid ts = (st, false) := by
    simp [extend_grammar, h]
  exact ⟨h1, by rw [h1], by rw [h1]⟩

def envC1w : Env := ⟨fun _ => false, fun _ => true, none⟩

def stC1w : ManagerState :=
  ⟨⟨"start: a", "d0", "manual", "v0", "2024-01-01T00:00:00"⟩, ⟨"start: a"⟩,
    [("v0", ⟨"start: a", "d0", "manual", "v0", "2024-01-01T00:00:00"⟩)]⟩

theorem C1_extend_failure_preserves_state_witness :
    envC1w.compileOk
        (extendedText stC1w.current_version.grammar "bad_rule: (" "ext") = false ∧
    extend_grammar envC1w stC1w "bad_rule: (" "ext" "agent" "v1" "t1" = (stC1w, false) := by
  exact ⟨rfl,
    (C1_extend_failure_preserves_state envC1w stC1w "bad_rule: (" "ext" "agent" "v1" "t1"
      rfl).1⟩

/-! ## C2 -/

def vGoodC2 : GrammarVersion :=
  ⟨"start: good", "init", "initialization", "v0", "2024-01-01T00:00:00"⟩

def vBadC2 : GrammarVersion :=
  ⟨"start: bad (", "broken", "manual", "v1", "2024-01-02T00:00:00"⟩

def envC2 : Env := ⟨fun g => g == "start: good", fun _ => true, none⟩

def stC2 : ManagerState :=
  ⟨vGoodC2, ⟨"start: good"⟩, [("v0", vGoodC2.to_dict), ("v1", vBadC2.to_dict)]⟩

/-- C2 (code bug): after `rollback_to_version` to a stored version whose text
does not compile, the call has returned `False` yet `current_version` is the
loaded version while the active artifact is still the one compiled from the
previous grammar — the claimed sync invariant between the artifact and
`current` is violated at an observable return. -/
theorem C2_artifact_desync :
    (rollback_to_version envC2 stC2 "v1").2 = false ∧
    (rollback_to_version envC2 stC2 "v1").1.current_version.grammar = "start: bad (" ∧
    (rollback_to_version envC2 stC2 "v1").1.larkParser.source = "start: good" ∧
    (rollback_to_version envC2 stC2 "v1").1.larkParser.source
      ≠ (rollback_to_version envC2 stC2 "v1").1.current_version.grammar := by
  decide

/-! ## C3 -/

def loopEnvC3 : LoopEnv Nat :=
  ⟨fun _ => .error "неожиданный токен", fun s _ => (true, s + 1), true⟩

/-- C3 (code bug): with attempt bound 1, an always-failing parse and a
collaborator that always reports a successful extension, `Parser.parse` does
not perform one retry and then fail: evaluating
`correction_result.get("success", False)` on the returned `bool` raises
`AttributeError` right after the first successful extension (the state shows
exactly one `fixStep` call), and the result is independent of the configured
bound, which the loop never consults. -/
theorem C3_attempt_bound_never_enforced :
    parser_parse loopEnvC3 1 5 0 0
      = some (.error
          (.attributeError "\x27bool\x27 object has no attribute \x27get\x27"), 1) ∧
    parser_parse loopEnvC3 1 5 0 0 = parser_parse loopEnvC3 1000000 5 0 0 := by
  exact ⟨rfl, rfl⟩

/-! ## C5 -/

def loopEnvC5 : LoopEnv Bool :=
  ⟨fun _ => .error "Синтаксическая ошибка: тест", fun _ _ => (true, true), true⟩

/-- C5 (code bug): the self-extension loop does throw something other than
the uniform syntax failure — whenever the collaborator reports success the
loop raises `AttributeError` (from `correction_result.get` on a `bool`)
instead of returning a tree or the syntax-failure value. -/
theorem C5_loop_raises_attribute_error :
    parser_parse loopEnvC5 3 2 false 0
      = some (.error
          (.attributeError "\x27bool\x27 object has no attribute \x27get\x27"), true) := by
  rfl

/-! ## C8 -/

/-- C8: a successful `save_to_file` followed by `load_from_file` at the same
path returns a `GrammarVersion` equal to the saved one in all five fields. -/
theorem C8_save_load_roundtrip (ioOk : Bool) (fs : Store) (filePath : String)
    (v : GrammarVersion) (h : (save_to_file ioOk fs filePath v).1 = true) :
    load_from_file (save_to_file ioOk fs filePath v).2 filePath = some v := by
  have hok : ioOk = true := by
    by_contra hne
    simp [save_to_file, hne] at h
  subst hok
  cases v
  simp [save_to_file, load_from_file, lookup_storeWrite, GrammarVersion.to_dict,
    VersionDict.from_dict]

def vC8w : GrammarVersion :=
  ⟨"start: s", "first", "manual", "v42", "2024-03-04T05:06:07"⟩

theorem C8_save_load_roundtrip_witness :
    (save_to_file true [] "v42" vC8w).1 = true ∧
    load_from_file (save_to_file true [] "v42" vC8w).2 "v42" = some vC8w := by
  exact ⟨rfl, C8_save_load_roundtrip true [] "v42" vC8w rfl⟩

/-! ## C9 -/

def vC9 : GrammarVersion := ⟨"start: g", "d", "manual", "v0", "2024-01-01T00:00:00"⟩

def stC9 : ManagerState := ⟨vC9, ⟨"start: g"⟩, [("v0", vC9.to_dict)]⟩

def benvC9bad : BackupEnv := ⟨false, fun _ => true, true⟩

def benvC9ok : BackupEnv := ⟨true, fun _ => true, true⟩

/-- C9 (code bug): when the backup target cannot be created,
`backup_all_versions` raises (the `mkdir` sits outside the `try` block)
instead of returning `False` as claimed; when everything succeeds it does
return `True` with a manifest carrying the backup timestamp, the number of
versions and the current version id. -/
theorem C9_mkdir_failure_raises :
    backup_all_versions benvC9bad "2024-05-01T00:00:00" stC9 = .error () ∧
    backup_all_versions benvC9ok "2024-05-01T00:00:00" stC9
      = .ok (true, ⟨[("v0", vC9.to_dict)],
          some ⟨"2024-05-01T00:00:00", 1, "v0"⟩⟩) := by
  exact ⟨rfl, rfl⟩

/-! ## C4 -/

def vGoodC4 : GrammarVersion :=
  ⟨"start: ok", "init", "initialization", "v0", "2024-01-01T00:00:00"⟩

def vBadC4 : GrammarVersion :=
  ⟨"start: broken (", "bad", "manual", "v1", "2024-01-02T00:00:00"⟩

def envC4 : Env := ⟨fun g => g == "start: ok", fun _ => true, none⟩

def stC4 : ManagerState :=
  ⟨vGoodC4, ⟨"start: ok"⟩, [("v0", vGoodC4.to_dict), ("v1", vBadC4.to_dict)]⟩

/-- C4 is false as stated: rolling back to a loadable version whose grammar
text fails to compile returns failure, but `current` has already been moved
to the loaded version rather than left untouched. -/
theorem C4_counterexample :
    (rollback_to_version envC4 stC4 "v1").2 = false ∧
    (rollback_to_version envC4 stC4 "v1").1.current_version ≠ stC4.current_version ∧
    (rollback_to_version envC4 stC4 "v1").1.current_version = vBadC4 := by
  decide

/-- C4 (amended): `rollback(id)` with an unloadable version returns failure
with the whole state untouched; with a loadable version whose text fails to
compile it returns failure, but `current` has already been set to the loaded
version while the artifact and the store keep their previous values; on
success `current` and the artifact are swapped together to the loaded
version. -/
theorem C4_rollback_behaviour (env : Env) (st : ManagerState) (version_id : String) :
    (load_version st version_id = none →
      rollback_to_version env st version_id = (st, false)) ∧
    (∀ v, load_version st version_id = some v → env.compileOk v.grammar = false →
      (rollback_to_version env st version_id).2 = false ∧
      (rollback_to_version env st version_id).1.current_version = v ∧
      (rollback_to_version env st version_id).1.larkParser = st.larkParser ∧
      (rollback_to_version env st version_id).1.store = st.store) ∧
    (∀ v, load_version st version_id = some v → env.compileOk v.grammar = true →
      rollback_to_version env st version_id
        = ({ st with current_version := v, larkParser := ⟨v.grammar⟩ }, true)) := by
  refine ⟨?_, ?_, ?_⟩
  · intro h
    simp [rollback_to_version, h]
  · intro v hv hc
    simp [rollback_to_version, hv, hc]
  · intro v hv hc
    simp [rollback_to_version, hv, hc]

theorem C4_rollback_behaviour_witness :
    load_version stC4 "v1" = some vBadC4 ∧
    envC4.compileOk vBadC4.grammar = false ∧
    (rollback_to_version envC4 stC4 "v1").2 = false ∧
    (rollback_to_version envC4 stC4 "v1").1.current_version = vBadC4 ∧
    (rollback_to_version envC4 stC4 "v1").1.larkParser = stC4.larkParser := by
  have h := (C4_rollback_behaviour envC4 stC4 "v1").2.1 vBadC4 (by decide) (by decide)
  exact ⟨by decide, by decide, h.1, h.2.1, h.2.2.1⟩

/-! ## C7 -/

def bkC7 : String → BackendOutcome := fun _ => .unexpectedToken "BAD" 5

def codeC7 : String := "aa\nbb\ncc"

/-- C7 is false as stated: for a failing parse the uniform failure message
marks the failing line with an `"-> "` arrow prefix but contains no caret
character at all, so there is no "caret line under the failing line pointing
at the failing column". -/
theorem C7_counterexample :
    manager_parse bkC7 codeC7
      = .error ("Синтаксическая ошибка: неожиданный токен \x27BAD\x27 в позиции 5"
          ++ "\nСтрока 2, столбец 3:\n   1: aa\n-> 2: bb\n   3: cc") ∧
    ("Синтаксическая ошибка: неожиданный токен \x27BAD\x27 в позиции 5"
          ++ "\nСтрока 2, столбец 3:\n   1: aa\n-> 2: bb\n   3: cc").toList.contains '^'
      = false := by
  exact ⟨by decide, by decide⟩

/-- C7 (amended): every parse failure is surfaced as the single uniform
syntax-failure value; for an `UnexpectedToken` the message carries the kind
text, the 1-based line and column computed from the stream position, and the
context window; for `UnexpectedCharacters` likewise with the backend's line
and column; for any other backend error only the kind text and the backend
message.  The context window holds at most 2 lines before and after the
failing line (at most 5 in all), each rendered as its 1-based line number
and text, the failing line marked with an `"-> "` arrow prefix and the
others with three spaces — there is no caret line. -/
theorem C7_diagnostic_format (backend : String → BackendOutcome) (code : String) :
    (∀ tok pos, backend code = .unexpectedToken tok pos →
      manager_parse backend code
        = .error ("Синтаксическая ошибка: неожиданный токен \x27" ++ tok
            ++ "\x27 в позиции " ++ toString pos
            ++ "\nСтрока " ++ toString (get_line_col code pos).1
            ++ ", столбец " ++ toString (get_line_col code pos).2 ++ ":\n"
            ++ get_error_context code (get_line_col code pos).1)) ∧
    (∀ ch pos line column, backend code = .unexpectedCharacters ch pos line column →
      manager_parse backend code
        = .error ("Синтаксическая ошибка: неожиданный символ \x27" ++ String.mk [ch]
            ++ "\x27 в позиции " ++ toString pos
            ++ "\nСтрока " ++ toString line ++ ", столбец " ++ toString column ++ ":\n"
            ++ get_error_context code line)) ∧
    (∀ m, backend code = .otherError m →
      manager_parse backend code = .error ("Ошибка при разборе кода: " ++ m)) ∧
    (∀ line, (get_error_context_lines code line).length ≤ 5) ∧
    (∀ line k, k < (get_error_context_lines code line).length →
      (get_error_context_lines code line)[k]?
        = some ((if line - 3 + k + 1 = line then "-> " else "   ")
            ++ toString (line - 3 + k + 1) ++ ": "
            ++ (splitLines code).getD (line - 3 + k) "")) := by
  refine ⟨?_, ?_, ?_, ?_, ?_⟩
  · intro tok pos h
    simp [manager_parse, h]
  · intro ch pos line column h
    simp [manager_parse, h]
  · intro m h
    simp [manager_parse, h]
  · intro line
    simp only [get_error_context_lines, List.length_map, List.length_range]
    omega
  · intro line k hk
    simp only [get_error_context_lines, List.length_map, List.length_range] at hk
    simp only [get_error_context_lines, List.getElem?_map, List.getElem?_range hk]
    rfl

theorem C7_diagnostic_format_witness :
    manager_parse bkC7 codeC7
      = .error ("Синтаксическая ошибка: неожиданный токен \x27BAD\x27 в позиции 5"
          ++ "\nСтрока 2, столбец 3:\n   1: aa\n-> 2: bb\n   3: cc") := by
  have h := (C7_diagnostic_format bkC7 codeC7).1 "BAD" 5 rfl
  rw [h]
  decide

/-! ## C10 -/

theorem insertByTs_append_last (v u : GrammarVersion)
    (hu : strLe u.timestamp v.timestamp = true) :
    ∀ l : List GrammarVersion, ∃ l2, insertByTs u (l ++ [v]) = l2 ++ [v] := by
  intro l
  induction l with
  | nil =>
    refine ⟨[u], ?_⟩
    simp [insertByTs, hu]
  | cons y l ih =>
    by_cases hy : strLe u.timestamp y.timestamp = true
    · exact ⟨u :: y :: l, by simp [insertByTs, hy]⟩
    · obtain ⟨l2, hl2⟩ := ih
      refine ⟨y :: l2, ?_⟩
      have hstep : insertByTs u (y :: (l ++ [v])) = y :: insertByTs u (l ++ [v]) := by
        simp [insertByTs, hy]
      rw [List.cons_append, hstep, hl2, List.cons_append]

theorem sortByTs_append_last (v : GrammarVersion) :
    ∀ l : List GrammarVersion, (∀ u ∈ l, strLe u.timestamp v.timestamp = true) →
      ∃ l2, sortByTs (l ++ [v]) = l2 ++ [v] := by
  intro l
  induction l with
  | nil => exact fun _ => ⟨[], by simp [sortByTs, insertByTs]⟩
  | cons x l ih =>
    intro h
    obtain ⟨l2, hl2⟩ := ih (fun u hu => h u (by simp [hu]))
    have hx : strLe x.timestamp v.timestamp = true := h x (by simp)
    obtain ⟨l3, hl3⟩ := insertByTs_append_last v x hx l2
    have hstep : sortByTs ((x :: l) ++ [v]) = insertByTs x (sortByTs (l ++ [v])) := rfl
    exact ⟨l3, by rw [hstep, hl2, hl3]⟩

theorem getLast?_append_singleton (v : GrammarVersion) (l : List GrammarVersion) :
    (l ++ [v]).getLast? = some v := by
  induction l with
  | nil => rfl
  | cons x l ih =>
    cases l with
    | nil => rfl
    | cons y l => simpa [List.getLast?_cons_cons] using ih

/-- C10: constructing a manager with an explicit initial grammar persists it
as an `"initialization"` version before any compilation is attempted, so a
non-compiling initial grammar makes the constructor raise only after the
version has been durably saved; carrying the strictly newest timestamp, that
invalid version is what `_load_latest_version` then returns, so a subsequent
no-argument initialization adopts it and raises again. -/
theorem C10_invalid_initial_grammar_persisted
    (env : Env) (fs : Store) (g vid ts vid2 ts2 : String)
    (hc : env.compileOk g = false)
    (hs : env.saveOk vid = true)
    (hfresh : ∀ p ∈ fs, ¬p.1 = vid)
    (hnewest : ∀ p ∈ fs, strLt p.2.timestamp.data ts.data = true) :
    (init_with_grammar env fs g vid ts).2 = .error () ∧
    ((init_with_grammar env fs g vid ts).1.lookup vid
      = some (GrammarVersion.to_dict
          ⟨g, "Начальная версия грамматики", "initialization", vid, ts⟩)) ∧
    load_latest_version (init_with_grammar env fs g vid ts).1
      = some ⟨g, "Начальная версия грамматики", "initialization", vid, ts⟩ ∧
    (init_from_store env (init_with_grammar env fs g vid ts).1 vid2 ts2).2
      = .error () := by
  set vNew : GrammarVersion :=
    ⟨g, "Начальная версия грамматики", "initialization", vid, ts⟩ with hvNew
  have hstore : (init_with_grammar env fs g vid ts).1 = storeWrite fs vid vNew.to_dict := by
    simp [init_with_grammar, hs, hc, save_to_file]
  have hfilter : fs.filter (fun p => p.1 ≠ vid) = fs := by
    rw [List.filter_eq_self]
    intro p hp
    simpa using hfresh p hp
  have hflat : storeWrite fs vid vNew.to_dict = fs ++ [(vid, vNew.to_dict)] := by
    rw [storeWrite, hfilter]
  have hlatest : load_latest_version (init_with_grammar env fs g vid ts).1 = some vNew := by
    rw [hstore, hflat, load_latest_version]
    have hmap : (fs ++ [(vid, vNew.to_dict)]).map (fun p => p.2.from_dict)
        = fs.map (fun p => p.2.from_dict) ++ [vNew] := by
      simp [GrammarVersion.to_dict, VersionDict.from_dict]
    rw [hmap]
    obtain ⟨l2, hl2⟩ := sortByTs_append_last vNew (fs.map (fun p => p.2.from_dict))
      (by
        intro u hu
        simp only [List.mem_map] at hu
        obtain ⟨p, hp, rfl⟩ := hu
        simp [strLe, VersionDict.from_dict, hnewest p hp])
    rw [hl2]
    exact getLast?_append_singleton vNew l2
  refine ⟨?_, ?_, hlatest, ?_⟩
  · simp [init_with_grammar, hc]
  · rw [hstore]
    exact lookup_storeWrite fs vid vNew.to_dict
  · rw [init_from_store, hlatest]
    simp [hc]

def envC10w : Env := ⟨fun _ => false, fun _ => true, none⟩

def fsC10w : Store :=
  [("v0", ⟨"start: old", "d", "manual", "v0", "2024-01-01T00:00:00"⟩)]

theorem C10_invalid_initial_grammar_persisted_witness :
    envC10w.compileOk "start: broken (" = false ∧
    envC10w.saveOk "v9" = true ∧
    (∀ p ∈ fsC10w, ¬p.1 = "v9") ∧
    (∀ p ∈ fsC10w, strLt p.2.timestamp.data ("2024-02-02T00:00:00" : String).data = true) ∧
    load_latest_version
        (init_with_grammar envC10w fsC10w "start: broken (" "v9" "2024-02-02T00:00:00").1
      = some ⟨"start: broken (", "Начальная версия грамматики", "initialization",
          "v9", "2024-02-02T00:00:00"⟩ ∧
    (init_with_grammar envC10w fsC10w "start: broken (" "v9" "2024-02-02T00:00:00").2
      = .error () := by
  have h := C10_invalid_initial_grammar_persisted envC10w fsC10w
    "start: broken (" "v9" "2024-02-02T00:00:00" "vX" "tX"
    (by decide) (by decide) (by decide) (by decide)
  exact ⟨by decide, by decide, by decide, by decide, h.2.2.1, h.1⟩

/-! ## C6 -/

theorem startsCmdMatch_of_startsDirective (l : List Char) (r : (String × String) × List Char)
    (h : startsDirective l = some r) : (startsCmdMatch l).isSome = true := by
  cases l with
  | nil => cases h
  | cons c1 cs =>
    cases cs with
    | nil => cases h
    | cons c2 rest =>
      by_cases hcc : c1 = '/' ∧ c2 = '/'
      · rw [startsDirective, if_pos hcc] at h
        rw [startsCmdMatch, if_pos hcc]
        by_cases hm : matchCmdAfter rest = true
        · rw [if_pos hm]
          rfl
        · rw [parseDirAfterSlashes, if_neg hm] at h
          cases h
      · rw [startsDirective, if_neg hcc] at h
        cases h

theorem extend_success_committed (env : Env) (st : ManagerState)
    (new_rules description created_by vid ts : String)
    (hc : env.compileOk (extendedText st.current_version.grammar new_rules description)
      = true) :
    (extend_grammar env st new_rules description created_by vid ts).2 = true ∧
    (extend_grammar env st new_rules description created_by vid ts).1.current_version.grammar
      = extendedText st.current_version.grammar new_rules description := by
  simp [extend_grammar, hc, add_version]

/-- C6 (amended): a directive needs the `//` marker of the pattern
`//\s*UPDATE_RULE:\s*<ruleName>\s*|=\s*<newAlternative>`, whose whitespace
may cross line breaks (so the alternative may be taken from the following
line); a bare `UPDATE_RULE: ...` line is ignored and appended verbatim.  For
an `extend_grammar` call carrying exactly one directive whose candidate
compiles: if the target rule is found, the committed grammar is the current
grammar with the matched rule span rewritten everywhere to
`ruleName: <existing alternatives> | <newAlternative>`, followed by the
extension-comment header and the cleaned fragment; if the target rule is not
found, the directive leaves the current grammar text unaffected (silent
no-op).  In the appended fragment, every position where a directive is
recognised is also struck out by the cleaning substitution (from its `//`
marker through the end of the `UPDATE_RULE` line). -/
theorem C6_update_rule_merge (env : Env) (st : ManagerState)
    (new_rules description created_by vid ts name alt line content : String)
    (hd : findDirectives new_rules = [(name, alt)])
    (hc : env.compileOk (extendedText st.current_version.grammar new_rules description)
      = true) :
    (extend_grammar env st new_rules description created_by vid ts).2 = true ∧
    (findRuleLine st.current_version.grammar name = some (line, content) →
      (extend_grammar env st new_rules description created_by vid
          ts).1.current_version.grammar
        = pyReplace st.current_version.grammar line
            (name ++ ": " ++ pyStrip content ++ " | " ++ alt)
          ++ "\n\n// Расширение: " ++ description ++ "\n"
          ++ removeDirectiveText new_rules) ∧
    (findRuleLine st.current_version.grammar name = none →
      (extend_grammar env st new_rules description created_by vid
          ts).1.current_version.grammar
        = st.current_version.grammar
          ++ "\n\n// Расширение: " ++ description ++ "\n"
          ++ removeDirectiveText new_rules) ∧
    (∀ l : List Char, ∀ r : (String × String) × List Char,
      startsDirective l = some r → (startsCmdMatch l).isSome = true) := by
  obtain ⟨hret, hgram⟩ :=
    extend_success_committed env st new_rules description created_by vid ts hc
  have hext : extendedText st.current_version.grammar new_rules description
      = applyDirective st.current_version.grammar (name, alt)
        ++ "\n\n// Расширение: " ++ description ++ "\n"
        ++ removeDirectiveText new_rules := by
    rw [extendedText, hd]
    rfl
  refine ⟨hret, ?_, ?_, ?_⟩
  · intro hrl
    rw [hgram, hext, applyDirective, hrl]
  · intro hrl
    rw [hgram, hext, applyDirective, hrl]
  · exact startsCmdMatch_of_startsDirective

def envC6 : Env := ⟨fun _ => true, fun _ => true, none⟩

def stC6 : ManagerState :=
  ⟨⟨"start: stmt\nstatement: a | b", "d0", "manual", "v0", "2024-01-01T00:00:00"⟩,
    ⟨"start: stmt\nstatement: a | b"⟩, []⟩

theorem C6_update_rule_merge_witness :
    findDirectives "// UPDATE_RULE: statement |= baz\nbaz: BAR"
      = [("statement", "baz")] ∧
    envC6.compileOk (extendedText stC6.current_version.grammar
      "// UPDATE_RULE: statement |= baz\nbaz: BAR" "ext") = true ∧
    findRuleLine stC6.current_version.grammar "statement"
      = some ("statement: a | b", " a | b") ∧
    removeDirectiveText "// UPDATE_RULE: statement |= baz\nbaz: BAR" = "\nbaz: BAR" ∧
    (extend_grammar envC6 stC6 "// UPDATE_RULE: statement |= baz\nbaz: BAR"
        "ext" "agent" "v1" "2024-01-02T00:00:00").1.current_version.grammar
      = "start: stmt\nstatement: a | b | baz\n\n// Расширение: ext\n\nbaz: BAR" := by
  have h := C6_update_rule_merge envC6 stC6
    "// UPDATE_RULE: statement |= baz\nbaz: BAR" "ext" "agent" "v1"
    "2024-01-02T00:00:00" "statement" "baz" "statement: a | b" " a | b"
    (by decide) (by decide)
  refine ⟨by decide, by decide, by decide, by decide, ?_⟩
  have h2 := h.2.1 (by decide)
  rw [h2]
  decide

def stC6x : ManagerState :=
  ⟨⟨"statement: a", "d0", "manual", "v0", "2024-01-01T00:00:00"⟩,
    ⟨"statement: a"⟩, []⟩

/-- C6 is false as stated: a line `UPDATE_RULE: statement |= foo` — matching
the claimed pattern, which has no `//` marker — is not recognised: the
committed grammar keeps the rule `statement` unchanged, does not contain the
rewritten definition, and still carries the directive line verbatim in the
appended fragment. -/
theorem C6_counterexample :
    (extend_grammar envC6 stC6x "UPDATE_RULE: statement |= foo" "d" "agent" "v1"
        "2024-01-02T00:00:00").2 = true ∧
    (extend_grammar envC6 stC6x "UPDATE_RULE: statement |= foo" "d" "agent" "v1"
        "2024-01-02T00:00:00").1.current_version.grammar
      = "statement: a\n\n// Расширение: d\nUPDATE_RULE: statement |= foo" ∧
    ¬ ("statement: a | foo".data <:+:
      (extend_grammar envC6 stC6x "UPDATE_RULE: statement |= foo" "d" "agent" "v1"
        "2024-01-02T00:00:00").1.current_version.grammar.data) ∧
    ("UPDATE_RULE: statement |= foo".data <:+:
      (extend_grammar envC6 stC6x "UPDATE_RULE: statement |= foo" "d" "agent" "v1"
        "2024-01-02T00:00:00").1.current_version.grammar.data) := by
  refine ⟨by decide, by decide, by decide, by decide⟩

end AstCreate
